import Mathlib

/- Verification development for the reading-order resolution engine of the
   Manga_2_Music repository (src/core/visual_analysis/reading_order.py).

   Shallow-embedding conventions:
   - Python floats are modelled as exact rationals.
   - Python list.sort (a stable sort) is modelled by a stable insertion sort.
   - Python exceptions that the embedded code can actually raise (IndexError
     from sequence subscripts, ValueError from min()/max() of an empty
     sequence) are modelled with the Except monad.
   - The Euclidean distance np.sqrt(dx**2 + dy**2) is modelled by the squared
     distance dx^2 + dy^2; only order comparisons of distances occur, and
     squaring is strictly monotone on nonnegative reals, so the comparisons
     agree. -/

namespace ReadingOrder

/-- Python exceptions that the embedded code can raise. -/
inductive PyErr where
  | indexError
  | valueError
deriving DecidableEq, Repr

/-- Python sequence subscript: l[i] for a nonnegative index, raising
IndexError when out of range. -/
def pyIdx {α : Type} : List α → Nat → Except PyErr α
  | [], _ => Except.error PyErr.indexError
  | x :: _, 0 => Except.ok x
  | _ :: xs, n + 1 => pyIdx xs n

/-- Python min() over a list of numbers; ValueError on an empty sequence. -/
def pyMin (l : List ℚ) : Except PyErr ℚ :=
  match l with
  | [] => Except.error PyErr.valueError
  | x :: xs => Except.ok (List.foldl min x xs)

/-- Python max() over a list of numbers; ValueError on an empty sequence. -/
def pyMax (l : List ℚ) : Except PyErr ℚ :=
  match l with
  | [] => Except.error PyErr.valueError
  | x :: xs => Except.ok (List.foldl max x xs)

/-- Stable insertion step: x is placed before the first element y with
le x y, hence after every earlier element with an equal key. -/
def insertStable {α : Type} (le : α → α → Bool) (x : α) : List α → List α
  | [] => [x]
  | y :: ys => if le x y then x :: y :: ys else y :: insertStable le x ys

/-- Stable sort modelling Python list.sort: elements that compare equal keep
their original relative order. -/
def sortStable {α : Type} (le : α → α → Bool) : List α → List α
  | [] => []
  | x :: xs => insertStable le x (sortStable le xs)

/-- Bounding box [x1, y1, x2, y2] (source type alias BBOX). -/
structure BBox where
  x1 : ℚ
  y1 : ℚ
  x2 : ℚ
  y2 : ℚ
deriving DecidableEq, Repr

/-- Gutter orientation string in the source: either horizontal or vertical. -/
inductive Orientation where
  | horizontal
  | vertical
deriving DecidableEq, Repr

/-- Source dataclass Gutter; the field named end in the source is stop here
(end is a Lean keyword). -/
structure Gutter where
  orientation : Orientation
  position : ℚ
  start : ℚ
  stop : ℚ
deriving DecidableEq, Repr

/-- Node of the recursive division tree (source dataclass PanelNode). -/
inductive PanelNode where
  | mk (bbox : BBox) (children : List PanelNode) (isLeaf : Bool)

/-- First component of bbox_center: (x1 + x2) / 2. -/
def cx (b : BBox) : ℚ := (b.x1 + b.x2) / 2

/-- Second component of bbox_center: (y1 + y2) / 2. -/
def cy (b : BBox) : ℚ := (b.y1 + b.y2) / 2

/-- Source function bbox_overlap: intersection area of two boxes, 0 when the
intersection is empty or degenerate. -/
def bboxOverlap (a b : BBox) : ℚ :=
  let ix1 := max a.x1 b.x1
  let iy1 := max a.y1 b.y1
  let ix2 := min a.x2 b.x2
  let iy2 := min a.y2 b.y2
  if ix2 ≤ ix1 ∨ iy2 ≤ iy1 then 0 else (ix2 - ix1) * (iy2 - iy1)

/-- The y-extent pairs (bbox[1], bbox[3]) of all panels, sorted by their
first component; each pair is kept as the two-element list it denotes in
Python, so that subscripting it can be modelled faithfully. -/
def yRangesOf (panels : List BBox) : List (List ℚ) :=
  sortStable (fun r s => decide (r.headD 0 ≤ s.headD 0))
    (List.map (fun b => [b.y1, b.y2]) panels)

/-- The x-extent pairs (bbox[0], bbox[2]) of all panels, sorted by their
first component. -/
def xRangesOf (panels : List BBox) : List (List ℚ) :=
  sortStable (fun r s => decide (r.headD 0 ≤ s.headD 0))
    (List.map (fun b => [b.x1, b.x2]) panels)

/-- Body of one iteration of the horizontal-gutter loop in detect_gutters
(source lines 91-107). -/
def horizStep (panels : List BBox) (mgs : ℚ) (yRanges : List (List ℚ))
    (acc : List Gutter) (i : Nat) : Except PyErr (List Gutter) :=
  match pyIdx yRanges i with
  | Except.error e => Except.error e
  | Except.ok ri =>
    match pyIdx ri 1 with
    | Except.error e => Except.error e
    | Except.ok bottom =>
      match pyIdx yRanges (i + 1) with
      | Except.error e => Except.error e
      | Except.ok ri1 =>
        match pyIdx ri1 0 with
        | Except.error e => Except.error e
        | Except.ok top =>
          if mgs ≤ top - bottom then
            match pyMin (List.map (fun b => b.x1)
                (List.filter (fun b => decide (b.y2 ≤ bottom + mgs)) panels)) with
            | Except.error e => Except.error e
            | Except.ok leftX =>
              match pyMax (List.map (fun b => b.x2)
                  (List.filter (fun b => decide (top - mgs ≤ b.y1)) panels)) with
              | Except.error e => Except.error e
              | Except.ok rightX =>
                Except.ok (acc ++
                  [Gutter.mk Orientation.horizontal ((top + bottom) / 2) leftX rightX])
          else Except.ok acc

/-- Body of one iteration of the vertical-gutter loop in detect_gutters
(source lines 114-129).  The source reads panel_x_ranges[i][2] although the
elements of panel_x_ranges are the two-element tuples (bbox[0], bbox[2]): the
subscript 2 is out of range, which the embedding keeps faithfully. -/
def vertStep (panels : List BBox) (mgs : ℚ) (xRanges : List (List ℚ))
    (acc : List Gutter) (i : Nat) : Except PyErr (List Gutter) :=
  match pyIdx xRanges i with
  | Except.error e => Except.error e
  | Except.ok ri =>
    match pyIdx ri 2 with
    | Except.error e => Except.error e
    | Except.ok right =>
      match pyIdx xRanges (i + 1) with
      | Except.error e => Except.error e
      | Except.ok ri1 =>
        match pyIdx ri1 0 with
        | Except.error e => Except.error e
        | Except.ok left =>
          if mgs ≤ left - right then
            match pyMin (List.map (fun b => b.y1)
                (List.filter (fun b => decide (b.x2 ≤ right + mgs)) panels)) with
            | Except.error e => Except.error e
            | Except.ok topY =>
              match pyMax (List.map (fun b => b.y2)
                  (List.filter (fun b => decide (left - mgs ≤ b.x1)) panels)) with
              | Except.error e => Except.error e
              | Except.ok bottomY =>
                Except.ok (acc ++
                  [Gutter.mk Orientation.vertical ((left + right) / 2) topY bottomY])
          else Except.ok acc

/-- The loop for i in range(...) of detect_gutters, over an explicit list of
indices, threading the accumulated gutters and propagating exceptions. -/
def gutterLoop (step : List Gutter → Nat → Except PyErr (List Gutter))
    (acc : List Gutter) : List Nat → Except PyErr (List Gutter)
  | [] => Except.ok acc
  | i :: rest =>
    match step acc i with
    | Except.error e => Except.error e
    | Except.ok acc2 => gutterLoop step acc2 rest

/-- Source function detect_gutters (lines 65-131): returns the pair
(horizontal gutters, vertical gutters), or the first exception raised. -/
def detectGutters (panels : List BBox) (pageWidth pageHeight mgs : ℚ) :
    Except PyErr (List Gutter × List Gutter) :=
  match gutterLoop (horizStep panels mgs (yRangesOf panels)) []
      (List.range (List.length (yRangesOf panels) - 1)) with
  | Except.error e => Except.error e
  | Except.ok hgs =>
    match gutterLoop (vertStep panels mgs (xRangesOf panels)) []
        (List.range (List.length (xRangesOf panels) - 1)) with
    | Except.error e => Except.error e
    | Except.ok vgs => Except.ok (hgs, vgs)

/-- Scoring of one horizontal gutter in select_best_gutter (lines 145-153):
none when all panel centers are on one side, otherwise the gutter with its
imbalance score. -/
def hScore (panels : List BBox) (g : Gutter) : Option (Gutter × ℚ) :=
  let topCount := List.countP (fun b => decide (cy b < g.position)) panels
  let bottomCount := List.countP (fun b => decide (g.position ≤ cy b)) panels
  if 0 < topCount ∧ 0 < bottomCount then
    some (g, |(topCount : ℚ) - (bottomCount : ℚ)| / (panels.length : ℚ))
  else none

/-- Scoring of one vertical gutter in select_best_gutter (lines 155-162). -/
def vScore (panels : List BBox) (g : Gutter) : Option (Gutter × ℚ) :=
  let leftCount := List.countP (fun b => decide (cx b < g.position)) panels
  let rightCount := List.countP (fun b => decide (g.position ≤ cx b)) panels
  if 0 < leftCount ∧ 0 < rightCount then
    some (g, |(leftCount : ℚ) - (rightCount : ℚ)| / (panels.length : ℚ))
  else none

/-- The all_gutters list of select_best_gutter: every scored horizontal
gutter in order, then every scored vertical gutter in order. -/
def scoredGutters (hg vg : List Gutter) (panels : List BBox) : List (Gutter × ℚ) :=
  List.filterMap (hScore panels) hg ++ List.filterMap (vScore panels) vg

/-- Source function select_best_gutter (lines 134-169): stable-sorts the
scored gutters by imbalance and returns the first, or none. -/
def selectBestGutter (hg vg : List Gutter) (panels : List BBox) : Option Gutter :=
  match sortStable (fun a b => decide (a.2 ≤ b.2)) (scoredGutters hg vg panels) with
  | [] => none
  | p :: _ => some p.1

/-- Source function divide_panels_by_gutter (lines 172-197): one pass over
the panels appending each to the first or second group. -/
def dividePanelsByGutter (panels : List BBox) (g : Gutter) : List BBox × List BBox :=
  match panels with
  | [] => ([], [])
  | b :: rest =>
    let p := dividePanelsByGutter rest g
    if g.orientation = Orientation.horizontal then
      if cy b < g.position then (b :: p.1, p.2) else (p.1, b :: p.2)
    else
      if g.position ≤ cx b then (b :: p.1, p.2) else (p.1, b :: p.2)

/-- Union bounding box of a nonempty panel list (min x1, min y1, max x2,
max y2); the empty case never arises at the call sites. -/
def unionBBox (panels : List BBox) : BBox :=
  match panels with
  | [] => BBox.mk 0 0 0 0
  | b :: bs =>
    BBox.mk (List.foldl (fun m c => min m c.x1) b.x1 bs)
      (List.foldl (fun m c => min m c.y1) b.y1 bs)
      (List.foldl (fun m c => max m c.x2) b.x2 bs)
      (List.foldl (fun m c => max m c.y2) b.y2 bs)

/-- Base-case leaf of build_division_tree (lines 212-225). -/
def baseLeaf (panels : List BBox) (pageWidth pageHeight : ℚ) : PanelNode :=
  match panels with
  | [] => PanelNode.mk (BBox.mk 0 0 pageWidth pageHeight) [] true
  | [b] => PanelNode.mk b [] true
  | ps => PanelNode.mk (unionBBox ps) [] true

/-- The key tuple (-center_x, center_y) of the fallback sort. -/
def rtlKey (b : BBox) : ℚ × ℚ := (-(cx b), cy b)

/-- Lexicographic comparison of two key tuples, as Python compares tuples. -/
def pairLexLe (p q : ℚ × ℚ) : Bool :=
  decide (p.1 < q.1 ∨ (p.1 = q.1 ∧ p.2 ≤ q.2))

/-- Fallback leaf of build_division_tree when no usable gutter exists or a
division is trivial (lines 236-246 and 252-260): panels sorted by
(-center_x, center_y), then collapsed to a single leaf. -/
def sortedMergeLeaf (panels : List BBox) : PanelNode :=
  match sortStable (fun a b => pairLexLe (rtlKey a) (rtlKey b)) panels with
  | [b] => PanelNode.mk b [] true
  | ps => PanelNode.mk (unionBBox ps) [] true

/-- Source function build_division_tree (lines 200-280), with the recursion
depth max_depth as fuel; both source branches store the children as
[child1, child2]. -/
def buildDivisionTree (pageWidth pageHeight mgs : ℚ) :
    Nat → List BBox → Except PyErr PanelNode
  | 0, panels => Except.ok (baseLeaf panels pageWidth pageHeight)
  | maxDepth + 1, panels =>
    if panels.length ≤ 1 then Except.ok (baseLeaf panels pageWidth pageHeight)
    else
      match detectGutters panels pageWidth pageHeight mgs with
      | Except.error e => Except.error e
      | Except.ok (hg, vg) =>
        match selectBestGutter hg vg panels with
        | none => Except.ok (sortedMergeLeaf panels)
        | some g =>
          let groups := dividePanelsByGutter panels g
          if groups.1 = [] ∨ groups.2 = [] then Except.ok (sortedMergeLeaf panels)
          else
            match buildDivisionTree pageWidth pageHeight mgs maxDepth groups.1 with
            | Except.error e => Except.error e
            | Except.ok child1 =>
              match buildDivisionTree pageWidth pageHeight mgs maxDepth groups.2 with
              | Except.error e => Except.error e
              | Except.ok child2 =>
                Except.ok (PanelNode.mk (unionBBox panels) [child1, child2] false)

mutual

/-- Source function traverse_tree_rtl (lines 283-296). -/
def traverseTreeRtl : PanelNode → List BBox
  | PanelNode.mk bbox children isLeaf =>
    if isLeaf then [bbox] else traverseChildren children

/-- Concatenation of the traversals of a list of children, in order. -/
def traverseChildren : List PanelNode → List BBox
  | [] => []
  | c :: cs => traverseTreeRtl c ++ traverseChildren cs

end

/-- The panel widths x2 - x1 of detect_4koma_layout. -/
def panelWidths (panels : List BBox) : List ℚ :=
  List.map (fun b => b.x2 - b.x1) panels

/-- Average panel width in detect_4koma_layout. -/
def avgPanelWidth (panels : List BBox) : ℚ :=
  (panelWidths panels).sum / ((panelWidths panels).length : ℚ)

/-- The vertical centers of the panels, sorted (detect_4koma_layout). -/
def sortedCentersY (panels : List BBox) : List ℚ :=
  sortStable (fun a b => decide (a ≤ b)) (List.map cy panels)

/-- Differences of adjacent sorted vertical centers (detect_4koma_layout). -/
def centerGaps (panels : List BBox) : List ℚ :=
  List.map (fun i => (sortedCentersY panels).getD (i + 1) 0 - (sortedCentersY panels).getD i 0)
    (List.range ((sortedCentersY panels).length - 1))

/-- Mean of the adjacent-center gaps (detect_4koma_layout). -/
def avgCenterGap (panels : List BBox) : ℚ :=
  (centerGaps panels).sum / ((centerGaps panels).length : ℚ)

/-- Source function detect_4koma_layout (lines 299-327). -/
def detect4KomaLayout (panels : List BBox) (pageWidth pageHeight : ℚ) : Bool :=
  if panels.length ≠ 4 then false
  else if avgPanelWidth panels < pageWidth * (8 / 10) then false
  else if 2 ≤ (sortedCentersY panels).length then
    (centerGaps panels).all
      (fun g => decide (|g - avgCenterGap panels| < avgCenterGap panels * (3 / 10)))
  else false

/-- The 4-koma branch of estimate_reading_order (lines 360-364): indices
sorted by the vertical center of their panel, stably. -/
def fourKomaOrder (panels : List BBox) : List Nat :=
  List.map Prod.fst (sortStable (fun a b => decide (a.2 ≤ b.2))
    (List.map (fun p => (p.1, cy p.2)) (List.enum panels)))

/-- One candidate update of the nearest-match scan (lines 388-406); the
accumulator holds (best index so far, best squared distance so far), with
none standing for the initial infinity. -/
def bestMatchStep (used : List Nat) (ob : BBox) (acc : Option Nat × Option ℚ)
    (p : Nat × BBox) : Option Nat × Option ℚ :=
  if p.1 ∈ used then acc
  else
    let d0 := (cx ob - cx p.2) ^ 2 + (cy ob - cy p.2) ^ 2
    let d := if 0 < bboxOverlap ob p.2 then 0 else d0
    match acc.2 with
    | none => (some p.1, some d)
    | some bd => if d < bd then (some p.1, some d) else acc

/-- The inner scan of the index-reconciliation loop: the unused original
panel matching one traversal bbox (overlap means distance 0). -/
def bestMatch (panels : List BBox) (used : List Nat) (ob : BBox) : Option Nat :=
  (List.foldl (bestMatchStep used ob) (none, none) (List.enum panels)).1

/-- Index reconciliation of estimate_reading_order (lines 380-416).  In the
source, used_indices always holds exactly the elements of reading_order, so
one list serves as both; the final loop appends every still-unused index in
original order. -/
def reconcileIndices (ordered : List BBox) (panels : List BBox) : List Nat :=
  let matched := List.foldl (fun ord ob =>
    match bestMatch panels ord ob with
    | some i => ord ++ [i]
    | none => ord) [] ordered
  matched ++ List.filter (fun i => decide (¬ i ∈ matched)) (List.range panels.length)

/-- Source function estimate_reading_order (lines 330-417). -/
def estimateReadingOrder (panels : List BBox) (pageWidth pageHeight : ℚ)
    (is4koma : Option Bool) (mgs : ℚ) : Except PyErr (List Nat) :=
  if panels.length = 0 then Except.ok []
  else if panels.length = 1 then Except.ok [0]
  else if (match is4koma with
      | some b => b
      | none => detect4KomaLayout panels pageWidth pageHeight) then
    Except.ok (fourKomaOrder panels)
  else
    match buildDivisionTree pageWidth pageHeight mgs 10 panels with
    | Except.error e => Except.error e
    | Except.ok tree => Except.ok (reconcileIndices (traverseTreeRtl tree) panels)

/-- Vertical center of the panel at an index (for stating order claims). -/
def cyAt (panels : List BBox) (i : Nat) : ℚ :=
  cy ((panels.get? i).getD (BBox.mk 0 0 0 0))

theorem perm_insertStable {α : Type} (le : α → α → Bool) (x : α) (l : List α) :
    (insertStable le x l).Perm (x :: l) := by
  induction l with
  | nil => simp [insertStable]
  | cons y ys ih =>
    by_cases h : le x y = true
    · simp [insertStable, h]
    · simp only [insertStable, h, if_false, Bool.false_eq_true]
      exact (ih.cons y).trans (List.Perm.swap x y ys)

theorem perm_sortStable {α : Type} (le : α → α → Bool) (l : List α) :
    (sortStable le l).Perm l := by
  induction l with
  | nil => simp [sortStable]
  | cons x xs ih =>
    exact (perm_insertStable le x (sortStable le xs)).trans (ih.cons x)

theorem length_sortStable {α : Type} (le : α → α → Bool) (l : List α) :
    (sortStable le l).length = l.length :=
  (perm_sortStable le l).length_eq

theorem mem_sortStable {α : Type} {le : α → α → Bool} {l : List α} {a : α} :
    a ∈ sortStable le l ↔ a ∈ l :=
  (perm_sortStable le l).mem_iff

theorem length_yRangesOf (panels : List BBox) :
    (yRangesOf panels).length = panels.length := by
  rw [yRangesOf, length_sortStable, List.length_map]

theorem length_xRangesOf (panels : List BBox) :
    (xRangesOf panels).length = panels.length := by
  rw [xRangesOf, length_sortStable, List.length_map]

theorem detectGutters_small (panels : List BBox) (pw ph mgs : ℚ)
    (h : panels.length ≤ 1) :
    detectGutters panels pw ph mgs = Except.ok ([], []) := by
  have hy : (yRangesOf panels).length - 1 = 0 := by rw [length_yRangesOf]; omega
  have hx : (xRangesOf panels).length - 1 = 0 := by rw [length_xRangesOf]; omega
  rw [detectGutters, hy, hx]
  simp [gutterLoop]

theorem xRangesOf_mem_length {panels : List BBox} {r : List ℚ}
    (hr : r ∈ xRangesOf panels) : r.length = 2 := by
  rw [xRangesOf] at hr
  obtain ⟨b, _, rfl⟩ := List.mem_map.mp (mem_sortStable.mp hr)
  rfl

theorem vertStep_zero_error (panels : List BBox) (mgs : ℚ) {r : List ℚ}
    {rest : List (List ℚ)} (hr : r.length = 2) (acc : List Gutter) :
    vertStep panels mgs (r :: rest) acc 0 = Except.error PyErr.indexError := by
  obtain ⟨a, b, rfl⟩ := List.length_eq_two.mp hr
  simp [vertStep, pyIdx]

theorem detectGutters_error (panels : List BBox) (pw ph mgs : ℚ)
    (h : 2 ≤ panels.length) :
    ∃ e, detectGutters panels pw ph mgs = Except.error e := by
  have hxlen : (xRangesOf panels).length = panels.length := length_xRangesOf panels
  obtain ⟨r, rest, hx⟩ : ∃ r rest, xRangesOf panels = r :: rest := by
    cases hxr : xRangesOf panels with
    | nil => rw [hxr] at hxlen; simp at hxlen; omega
    | cons r rest => exact ⟨r, rest, rfl⟩
  have hr : r.length = 2 := xRangesOf_mem_length (by rw [hx]; exact List.mem_cons_self r rest)
  obtain ⟨k, hk⟩ : ∃ k, (xRangesOf panels).length - 1 = k + 1 := ⟨panels.length - 2, by omega⟩
  have hloop : gutterLoop (vertStep panels mgs (xRangesOf panels)) []
      (List.range ((xRangesOf panels).length - 1)) = Except.error PyErr.indexError := by
    rw [hk, List.range_succ_eq_map, hx]
    simp [gutterLoop, vertStep_zero_error panels mgs hr]
  cases hh : gutterLoop (horizStep panels mgs (yRangesOf panels)) []
      (List.range ((yRangesOf panels).length - 1)) with
  | error e => exact ⟨e, by rw [detectGutters, hh]⟩
  | ok hgs => exact ⟨PyErr.indexError, by rw [detectGutters, hh, hloop]⟩

theorem buildDivisionTree_error (pw ph mgs : ℚ) (d : Nat) (panels : List BBox)
    (h : 2 ≤ panels.length) :
    ∃ e, buildDivisionTree pw ph mgs (d + 1) panels = Except.error e := by
  obtain ⟨e, he⟩ := detectGutters_error panels pw ph mgs h
  have hlen : ¬ panels.length ≤ 1 := by omega
  exact ⟨e, by rw [buildDivisionTree]; rw [if_neg hlen, he]⟩

theorem le_fst_of_mem_enumFrom {α : Type} {p : Nat × α} :
    ∀ {i : Nat} {l : List α}, p ∈ List.enumFrom i l → i ≤ p.1 := by
  intro i l
  induction l generalizing i with
  | nil => intro h; simp [List.enumFrom] at h
  | cons x xs ih =>
    intro h
    rw [List.enumFrom_cons] at h
    rcases List.mem_cons.mp h with h | h
    · subst h; exact le_refl i
    · exact le_trans (Nat.le_succ i) (ih h)

theorem fst_lt_of_mem_enumFrom {α : Type} {p : Nat × α} :
    ∀ {i : Nat} {l : List α}, p ∈ List.enumFrom i l → p.1 < i + l.length := by
  intro i l
  induction l generalizing i with
  | nil => intro h; simp [List.enumFrom] at h
  | cons x xs ih =>
    intro h
    rw [List.enumFrom_cons] at h
    rcases List.mem_cons.mp h with h | h
    · subst h; simp
    · have := ih h; simp only [List.length_cons]; omega

theorem fst_lt_of_mem_enum {α : Type} {p : Nat × α} {l : List α}
    (h : p ∈ List.enum l) : p.1 < l.length := by
  have := fst_lt_of_mem_enumFrom (i := 0) (l := l) h
  simpa using this

theorem get?_of_mem_enumFrom {α : Type} {p : Nat × α} :
    ∀ {i : Nat} {l : List α}, p ∈ List.enumFrom i l → l.get? (p.1 - i) = some p.2 := by
  intro i l
  induction l generalizing i with
  | nil => intro h; simp [List.enumFrom] at h
  | cons x xs ih =>
    intro h
    rw [List.enumFrom_cons] at h
    rcases List.mem_cons.mp h with h | h
    · subst h; simp
    · have hle : i + 1 ≤ p.1 := le_fst_of_mem_enumFrom h
      have := ih h
      have hsub : p.1 - i = (p.1 - (i + 1)) + 1 := by omega
      rw [hsub]
      simpa using this

theorem get?_of_mem_enum {α : Type} {p : Nat × α} {l : List α}
    (h : p ∈ List.enum l) : l.get? p.1 = some p.2 := by
  have := get?_of_mem_enumFrom (i := 0) (l := l) h
  simpa using this

theorem pairwise_fst_lt_enumFrom {α : Type} :
    ∀ (i : Nat) (l : List α), (List.enumFrom i l).Pairwise (fun a b => a.1 < b.1) := by
  intro i l
  induction l generalizing i with
  | nil => simp [List.enumFrom]
  | cons x xs ih =>
    rw [List.enumFrom_cons]
    refine List.Pairwise.cons ?_ (ih (i + 1))
    intro p hp
    have := le_fst_of_mem_enumFrom hp
    omega

theorem pairwise_fst_lt_enum {α : Type} (l : List α) :
    (List.enum l).Pairwise (fun a b => a.1 < b.1) :=
  pairwise_fst_lt_enumFrom 0 l

theorem fourKomaOrder_perm (panels : List BBox) :
    (fourKomaOrder panels).Perm (List.range panels.length) := by
  rw [fourKomaOrder]
  have h1 := (perm_sortStable (fun a b : Nat × ℚ => decide (a.2 ≤ b.2))
    (List.map (fun p : Nat × BBox => (p.1, cy p.2)) (List.enum panels))).map Prod.fst
  rw [List.map_map] at h1
  have h2 : (Prod.fst ∘ fun p : Nat × BBox => (p.1, cy p.2)) = Prod.fst := rfl
  rw [h2, List.enum_map_fst] at h1
  exact h1

theorem bestMatch_spec (panels : List BBox) (used : List Nat) (ob : BBox) {i : Nat}
    (h : bestMatch panels used ob = some i) : i ∉ used ∧ i < panels.length := by
  rw [bestMatch] at h
  revert h
  have : ∀ j : Nat,
      (List.foldl (bestMatchStep used ob) (none, none) (List.enum panels)).1 = some j →
        j ∉ used ∧ j < panels.length := by
    apply List.foldlRecOn (motive := fun acc : Option Nat × Option ℚ =>
        ∀ j : Nat, acc.1 = some j → j ∉ used ∧ j < panels.length)
      (List.enum panels) (bestMatchStep used ob)
      ((none, none) : Option Nat × Option ℚ)
    · intro j hj; simp at hj
    · intro acc hacc p hp j hj
      obtain ⟨a1, a2⟩ := acc
      by_cases hu : p.1 ∈ used
      · rw [bestMatchStep, if_pos hu] at hj
        exact hacc j hj
      · rcases a2 with _ | bd
        · simp only [bestMatchStep, if_neg hu] at hj
          simp at hj
          subst hj
          exact ⟨hu, fst_lt_of_mem_enum hp⟩
        · simp only [bestMatchStep, if_neg hu] at hj
          split at hj
          all_goals split at hj
          all_goals first
            | (simp at hj; subst hj; exact ⟨hu, fst_lt_of_mem_enum hp⟩)
            | exact hacc j hj
  exact this i

theorem reconcile_matched_spec (ordered panels : List BBox) :
    (List.foldl (fun ord ob =>
        match bestMatch panels ord ob with
        | some i => ord ++ [i]
        | none => ord) [] ordered).Nodup ∧
      ∀ i ∈ (List.foldl (fun ord ob =>
        match bestMatch panels ord ob with
        | some i => ord ++ [i]
        | none => ord) [] ordered), i < panels.length := by
  apply List.foldlRecOn (motive := fun ord : List Nat =>
      ord.Nodup ∧ ∀ i ∈ ord, i < panels.length) ordered _ ([] : List Nat)
  · exact ⟨List.nodup_nil, by intro i hi; simp at hi⟩
  · intro ord hord ob _
    rcases hbm : bestMatch panels ord ob with _ | i
    · simpa using hord
    · obtain ⟨hnu, hlt⟩ := bestMatch_spec panels ord ob hbm
      refine ⟨?_, ?_⟩
      · rw [List.nodup_append]
        exact ⟨hord.1, List.nodup_singleton i, by
          intro a ha hai
          rw [List.mem_singleton] at hai
          subst hai
          exact hnu ha⟩
      · intro j hj
        rcases List.mem_append.mp hj with hj | hj
        · exact hord.2 j hj
        · rw [List.mem_singleton] at hj; subst hj; exact hlt

theorem reconcileIndices_perm (ordered panels : List BBox) :
    (reconcileIndices ordered panels).Perm (List.range panels.length) := by
  rw [reconcileIndices]
  obtain ⟨hn, hb⟩ := reconcile_matched_spec ordered panels
  set matched := List.foldl (fun ord ob =>
    match bestMatch panels ord ob with
    | some i => ord ++ [i]
    | none => ord) [] ordered with hm
  rw [List.perm_iff_count]
  intro a
  rw [List.count_append]
  by_cases ha : a ∈ matched
  · have h1 : List.count a matched = 1 := by
      have hle := List.nodup_iff_count_le_one.mp hn a
      have hge : 0 < List.count a matched := List.count_pos_iff.mpr ha
      omega
    have h2 : List.count a (List.filter (fun i => decide (¬ i ∈ matched))
        (List.range panels.length)) = 0 := by
      rw [List.count_eq_zero]
      intro hmem
      have := (List.mem_filter.mp hmem).2
      simp at this
      exact this ha
    have h3 : List.count a (List.range panels.length) = 1 := by
      have hmem : a ∈ List.range panels.length := List.mem_range.mpr (hb a ha)
      have hle := List.nodup_iff_count_le_one.mp (List.nodup_range panels.length) a
      have hge : 0 < List.count a (List.range panels.length) := List.count_pos_iff.mpr hmem
      omega
    omega
  · have h1 : List.count a matched = 0 := List.count_eq_zero.mpr ha
    have h2 : List.count a (List.filter (fun i => decide (¬ i ∈ matched))
        (List.range panels.length)) = List.count a (List.range panels.length) :=
      List.count_filter (by simpa using ha)
    omega

theorem pairwise_insertStable {α : Type} {le : α → α → Bool} {P : α → α → Prop}
    (htot : ∀ a b, le a b = true ∨ le b a = true)
    (htrans : ∀ a b c, le a b = true → le b c = true → le a c = true)
    {x : α} {l : List α}
    (hl : l.Pairwise (fun a b => le a b = true ∧ (le b a = true → P a b)))
    (hx : ∀ y ∈ l, P x y) :
    (insertStable le x l).Pairwise
      (fun a b => le a b = true ∧ (le b a = true → P a b)) := by
  induction l with
  | nil => simp [insertStable]
  | cons y ys ih =>
    rw [List.pairwise_cons] at hl
    obtain ⟨hy, hys⟩ := hl
    by_cases h : le x y = true
    · rw [insertStable, if_pos h]
      refine List.Pairwise.cons ?_ (List.Pairwise.cons hy hys)
      intro z hz
      rcases List.mem_cons.mp hz with rfl | hz
      · exact ⟨h, fun _ => hx z (List.mem_cons_self z ys)⟩
      · refine ⟨htrans x y z h (hy z hz).1, fun _ => hx z (List.mem_cons_of_mem y hz)⟩
    · rw [insertStable, if_neg h]
      have hyx : le y x = true := (htot x y).resolve_left h
      refine List.Pairwise.cons ?_ (ih hys (fun z hz => hx z (List.mem_cons_of_mem y hz)))
      intro z hz
      rcases List.mem_cons.mp ((perm_insertStable le x ys).mem_iff.mp hz) with rfl | hz2
      · exact ⟨hyx, fun hc => absurd hc h⟩
      · exact hy z hz2

theorem pairwise_sortStable {α : Type} {le : α → α → Bool} {P : α → α → Prop}
    (htot : ∀ a b, le a b = true ∨ le b a = true)
    (htrans : ∀ a b c, le a b = true → le b c = true → le a c = true)
    {l : List α} (hl : l.Pairwise P) :
    (sortStable le l).Pairwise
      (fun a b => le a b = true ∧ (le b a = true → P a b)) := by
  induction l with
  | nil => simp [sortStable]
  | cons x xs ih =>
    rw [List.pairwise_cons] at hl
    exact pairwise_insertStable htot htrans (ih hl.2)
      (fun y hy => hl.1 y (mem_sortStable.mp hy))

theorem sortStable_head {α : Type} {le : α → α → Bool}
    (htot : ∀ a b, le a b = true ∨ le b a = true)
    (htrans : ∀ a b c, le a b = true → le b c = true → le a c = true) :
    ∀ {l : List α} {x : α} {t : List α}, sortStable le l = x :: t →
      ∃ l1 l2, l = l1 ++ x :: l2 ∧ (∀ y ∈ l1, le y x = false) ∧
        (∀ y ∈ l, le x y = true) := by
  intro l
  induction l with
  | nil => intro x t h; simp [sortStable] at h
  | cons a as ih =>
    intro x t h
    rw [sortStable] at h
    have hrefl : ∀ c : α, le c c = true := fun c => (htot c c).elim id id
    cases hs : sortStable le as with
    | nil =>
      have hp := perm_sortStable le as
      rw [hs] at hp
      obtain rfl := hp.symm.eq_nil
      rw [hs, insertStable] at h
      injection h with h1 h2
      subst h1
      refine ⟨[], [], rfl, by simp, ?_⟩
      intro y hy
      rcases List.mem_singleton.mp hy with rfl
      exact hrefl y
    | cons b bs =>
      obtain ⟨l1, l2, heq, hl1, hmin⟩ := ih hs
      rw [hs] at h
      rw [insertStable] at h
      by_cases hab : le a b = true
      · rw [if_pos hab] at h
        injection h with h1 h2
        subst h1
        refine ⟨[], as, rfl, by simp, ?_⟩
        intro y hy
        rcases List.mem_cons.mp hy with rfl | hy
        · exact hrefl y
        · exact htrans a b y hab (hmin y hy)
      · rw [if_neg hab] at h
        injection h with h1 h2
        subst h1
        have hba : le b a = true := (htot a b).resolve_left hab
        refine ⟨a :: l1, l2, by simp [heq], ?_, ?_⟩
        · intro y hy
          rcases List.mem_cons.mp hy with rfl | hy
          · exact Bool.eq_false_iff.mpr (fun hc => hab hc)
          · exact hl1 y hy
        · intro y hy
          rcases List.mem_cons.mp hy with rfl | hy
          · exact hba
          · exact hmin y hy

theorem fourKomaOrder_pairwise (panels : List BBox) :
    (fourKomaOrder panels).Pairwise (fun i j =>
      cyAt panels i < cyAt panels j ∨ (cyAt panels i = cyAt panels j ∧ i < j)) := by
  rw [fourKomaOrder, List.pairwise_map]
  have htot : ∀ a b : Nat × ℚ, decide (a.2 ≤ b.2) = true ∨ decide (b.2 ≤ a.2) = true := by
    intro a b
    rcases le_total a.2 b.2 with h | h
    · exact Or.inl (decide_eq_true h)
    · exact Or.inr (decide_eq_true h)
  have htrans : ∀ a b c : Nat × ℚ, decide (a.2 ≤ b.2) = true →
      decide (b.2 ≤ c.2) = true → decide (a.2 ≤ c.2) = true := by
    intro a b c h1 h2
    exact decide_eq_true (le_trans (of_decide_eq_true h1) (of_decide_eq_true h2))
  have hL : (List.map (fun p : Nat × BBox => (p.1, cy p.2)) (List.enum panels)).Pairwise
      (fun a b : Nat × ℚ => a.1 < b.1) := by
    rw [List.pairwise_map]
    exact pairwise_fst_lt_enum panels
  have hs := pairwise_sortStable htot htrans hL
  refine List.Pairwise.imp_of_mem ?_ hs
  intro a b ha hb hr
  have hlink : ∀ p : Nat × ℚ,
      p ∈ List.map (fun q : Nat × BBox => (q.1, cy q.2)) (List.enum panels) →
        p.2 = cyAt panels p.1 := by
    intro p hp
    obtain ⟨q, hq, rfl⟩ := List.mem_map.mp hp
    have hg := get?_of_mem_enum hq
    show cy q.2 = cyAt panels q.1
    rw [cyAt, hg]
    rfl
  have ha2 := hlink a (mem_sortStable.mp ha)
  have hb2 := hlink b (mem_sortStable.mp hb)
  obtain ⟨h1, h2⟩ := hr
  have hab : a.2 ≤ b.2 := of_decide_eq_true h1
  by_cases hba : b.2 ≤ a.2
  · right
    have heq : a.2 = b.2 := le_antisymm hab hba
    exact ⟨by rw [← ha2, ← hb2, heq], h2 (decide_eq_true hba)⟩
  · left
    rw [← ha2, ← hb2]
    exact lt_of_le_not_le hab hba

theorem estimate_4koma_path (panels : List BBox) (pw ph mgs : ℚ)
    (h : 2 ≤ panels.length) :
    estimateReadingOrder panels pw ph (some true) mgs =
      Except.ok (fourKomaOrder panels) := by
  have h0 : ¬ panels.length = 0 := by omega
  have h1 : ¬ panels.length = 1 := by omega
  rw [estimateReadingOrder.eq_def, if_neg h0, if_neg h1]
  simp

theorem estimate_someFalse_error (panels : List BBox) (pw ph mgs : ℚ)
    (h : 2 ≤ panels.length) :
    ∃ e, estimateReadingOrder panels pw ph (some false) mgs = Except.error e := by
  obtain ⟨e, he⟩ := buildDivisionTree_error pw ph mgs 9 panels h
  have h10 : (9 : Nat) + 1 = 10 := rfl
  rw [h10] at he
  have h0 : ¬ panels.length = 0 := by omega
  have h1 : ¬ panels.length = 1 := by omega
  refine ⟨e, ?_⟩
  rw [estimateReadingOrder.eq_def, if_neg h0, if_neg h1]
  simp [he]

theorem estimate_ok_perm (panels : List BBox) (pw ph : ℚ) (k : Option Bool) (mgs : ℚ)
    (l : List Nat) (h : estimateReadingOrder panels pw ph k mgs = Except.ok l) :
    l.Perm (List.range panels.length) := by
  rw [estimateReadingOrder.eq_def] at h
  by_cases h0 : panels.length = 0
  · rw [if_pos h0] at h
    injection h with h
    subst h
    rw [h0]
    simp
  · rw [if_neg h0] at h
    by_cases h1 : panels.length = 1
    · rw [if_pos h1] at h
      injection h with h
      subst h
      rw [h1]
      rfl
    · rw [if_neg h1] at h
      split at h
      · injection h with h
        subst h
        exact fourKomaOrder_perm panels
      · cases hb : buildDivisionTree pw ph mgs 10 panels with
        | error e => rw [hb] at h; cases h
        | ok tree =>
          rw [hb] at h
          injection h with h
          subst h
          exact reconcileIndices_perm (traverseTreeRtl tree) panels

theorem length_sortedCentersY (panels : List BBox) :
    (sortedCentersY panels).length = panels.length := by
  rw [sortedCentersY, length_sortStable, List.length_map]

theorem detect4Koma_iff (panels : List BBox) (pw ph : ℚ) (h4 : panels.length = 4) :
    detect4KomaLayout panels pw ph = true ↔
      pw * (8 / 10) ≤ avgPanelWidth panels ∧
        ∀ gp ∈ centerGaps panels,
          |gp - avgCenterGap panels| < avgCenterGap panels * (3 / 10) := by
  rw [detect4KomaLayout]
  have hne : ¬ panels.length ≠ 4 := by omega
  rw [if_neg hne]
  have hlen : 2 ≤ (sortedCentersY panels).length := by rw [length_sortedCentersY]; omega
  by_cases hw : avgPanelWidth panels < pw * (8 / 10)
  · rw [if_pos hw]
    simp only [Bool.false_eq_true, false_iff]
    intro hcon
    exact absurd hw (not_lt.mpr hcon.1)
  · rw [if_neg hw, if_pos hlen]
    rw [List.all_eq_true]
    constructor
    · intro hall
      refine ⟨not_lt.mp hw, ?_⟩
      intro gp hgp
      exact of_decide_eq_true (hall gp hgp)
    · intro hc gp hgp
      exact decide_eq_true (hc.2 gp hgp)

theorem divide_eq_filter (panels : List BBox) (g : Gutter) :
    dividePanelsByGutter panels g =
      if g.orientation = Orientation.horizontal then
        (List.filter (fun b => decide (cy b < g.position)) panels,
         List.filter (fun b => decide (¬ cy b < g.position)) panels)
      else
        (List.filter (fun b => decide (g.position ≤ cx b)) panels,
         List.filter (fun b => decide (¬ g.position ≤ cx b)) panels) := by
  induction panels with
  | nil => rw [dividePanelsByGutter]; split <;> simp
  | cons b rest ih =>
    by_cases ho : g.orientation = Orientation.horizontal
    · by_cases hc : cy b < g.position
      · simp [dividePanelsByGutter, ih, ho, hc, List.filter_cons]
      · have hc2 : g.position ≤ cy b := not_lt.mp hc
        simp [dividePanelsByGutter, ih, ho, hc, hc2, List.filter_cons]
    · by_cases hc : g.position ≤ cx b
      · simp [dividePanelsByGutter, ih, ho, hc, List.filter_cons]
      · have hc2 : cx b < g.position := not_le.mp hc
        simp [dividePanelsByGutter, ih, ho, hc, hc2, List.filter_cons]

theorem scored_nil_of_select_none {hg vg : List Gutter} {panels : List BBox}
    (h : selectBestGutter hg vg panels = none) : scoredGutters hg vg panels = [] := by
  have hp := perm_sortStable (fun a b : Gutter × ℚ => decide (a.2 ≤ b.2))
    (scoredGutters hg vg panels)
  cases hs : sortStable (fun a b : Gutter × ℚ => decide (a.2 ≤ b.2))
      (scoredGutters hg vg panels) with
  | nil => rw [hs] at hp; exact hp.symm.eq_nil
  | cons p t =>
    unfold selectBestGutter at h
    rw [hs] at h
    cases h

theorem select_none_of_scored_nil {hg vg : List Gutter} {panels : List BBox}
    (h : scoredGutters hg vg panels = []) : selectBestGutter hg vg panels = none := by
  unfold selectBestGutter
  rw [h]
  rfl

theorem hScore_eq_none_iff (panels : List BBox) (g : Gutter) :
    hScore panels g = none ↔
      List.countP (fun b => decide (cy b < g.position)) panels = 0 ∨
      List.countP (fun b => decide (g.position ≤ cy b)) panels = 0 := by
  simp only [hScore]
  by_cases hc : 0 < List.countP (fun b => decide (cy b < g.position)) panels ∧
      0 < List.countP (fun b => decide (g.position ≤ cy b)) panels
  · rw [if_pos hc]
    constructor
    · intro h; cases h
    · intro h; omega
  · rw [if_neg hc]
    constructor
    · intro _; omega
    · intro _; rfl

theorem vScore_eq_none_iff (panels : List BBox) (g : Gutter) :
    vScore panels g = none ↔
      List.countP (fun b => decide (cx b < g.position)) panels = 0 ∨
      List.countP (fun b => decide (g.position ≤ cx b)) panels = 0 := by
  simp only [vScore]
  by_cases hc : 0 < List.countP (fun b => decide (cx b < g.position)) panels ∧
      0 < List.countP (fun b => decide (g.position ≤ cx b)) panels
  · rw [if_pos hc]
    constructor
    · intro h; cases h
    · intro h; omega
  · rw [if_neg hc]
    constructor
    · intro _; omega
    · intro _; rfl

theorem selectBestGutter_some_spec {hg vg : List Gutter} {panels : List BBox} {g : Gutter}
    (h : selectBestGutter hg vg panels = some g) :
    ∃ s l1 l2, scoredGutters hg vg panels = l1 ++ (g, s) :: l2 ∧
      (∀ p ∈ l1, s < p.2) ∧ (∀ p ∈ scoredGutters hg vg panels, s ≤ p.2) := by
  have htot : ∀ a b : Gutter × ℚ, decide (a.2 ≤ b.2) = true ∨ decide (b.2 ≤ a.2) = true := by
    intro a b
    rcases le_total a.2 b.2 with hle | hle
    · exact Or.inl (decide_eq_true hle)
    · exact Or.inr (decide_eq_true hle)
  have htrans : ∀ a b c : Gutter × ℚ, decide (a.2 ≤ b.2) = true →
      decide (b.2 ≤ c.2) = true → decide (a.2 ≤ c.2) = true := by
    intro a b c h1 h2
    exact decide_eq_true (le_trans (of_decide_eq_true h1) (of_decide_eq_true h2))
  cases hs : sortStable (fun a b : Gutter × ℚ => decide (a.2 ≤ b.2))
      (scoredGutters hg vg panels) with
  | nil =>
    unfold selectBestGutter at h
    rw [hs] at h
    cases h
  | cons p t =>
    unfold selectBestGutter at h
    rw [hs] at h
    have hpg : p.1 = g := Option.some.inj h
    obtain ⟨l1, l2, heq, hl1, hmin⟩ := sortStable_head htot htrans hs
    have hpe : (g, p.2) = p := by rw [← hpg]
    refine ⟨p.2, l1, l2, by rw [hpe]; exact heq, ?_, ?_⟩
    · intro q hq
      have := hl1 q hq
      exact not_le.mp (of_decide_eq_false this)
    · intro q hq
      exact of_decide_eq_true (hmin q hq)

/-- Claim C1: the spec says estimate_reading_order never raises for any
finite input and positive page dimensions.  The code refutes this: for every
panel list with at least two panels, the call with is_4koma explicitly false
raises, because detect_gutters subscripts the two-element tuple
panel_x_ranges[i] with index 2 (source line 115). -/
theorem claim_C1 : ∀ (panels : List BBox) (pw ph mgs : ℚ), 2 ≤ panels.length →
    ∃ e, estimateReadingOrder panels pw ph (some false) mgs = Except.error e :=
  fun panels pw ph mgs h => estimate_someFalse_error panels pw ph mgs h

/-- Witness for C1: the spec's own right-to-left example raises. -/
theorem claim_C1_witness :
    2 ≤ ([BBox.mk 0 0 50 100, BBox.mk 60 0 110 100] : List BBox).length ∧
      ∃ e, estimateReadingOrder [BBox.mk 0 0 50 100, BBox.mk 60 0 110 100] 110 100
        (some false) 10 = Except.error e :=
  ⟨by norm_num,
   claim_C1 [BBox.mk 0 0 50 100, BBox.mk 60 0 110 100] 110 100 10 (by norm_num)⟩

/-- Claim C2: the spec says the output is always a permutation of 0..n-1.
Whenever the function does return a list, that list is a permutation of
0..n-1; but on every non-4-koma input with at least two panels the function
raises instead of returning (shown here on a concrete two-panel page), so
the universally quantified claim fails on the code. -/
theorem claim_C2 :
    (∀ (panels : List BBox) (pw ph : ℚ) (k : Option Bool) (mgs : ℚ) (l : List Nat),
        estimateReadingOrder panels pw ph k mgs = Except.ok l →
          l.Perm (List.range panels.length)) ∧
      estimateReadingOrder [BBox.mk 0 0 10 10, BBox.mk 20 0 30 10] 40 10 none 10 =
        Except.error PyErr.indexError := by
  constructor
  · exact estimate_ok_perm
  · norm_num [estimateReadingOrder, detect4KomaLayout, buildDivisionTree, detectGutters,
      yRangesOf, xRangesOf, sortStable, insertStable, gutterLoop, horizStep, vertStep,
      pyIdx, pyMin, pyMax, List.range_succ]

/-- Witness for C2 on a returning path. -/
theorem claim_C2_witness :
    estimateReadingOrder [BBox.mk 0 0 1 1] 5 5 none 10 = Except.ok [0] ∧
      ([0] : List Nat).Perm (List.range ([BBox.mk 0 0 1 1] : List BBox).length) := by
  have h : estimateReadingOrder [BBox.mk 0 0 1 1] 5 5 none 10 = Except.ok [0] := by
    norm_num [estimateReadingOrder]
  exact ⟨h, claim_C2.1 [BBox.mk 0 0 1 1] 5 5 none 10 [0] h⟩

/-- Claim C3: the spec says the two-panel page [[0,0,50,100],[60,0,110,100]]
at 110 by 100 with min gutter 10 yields a vertical gutter at x = 55 and the
order [1, 0].  The code instead raises IndexError in detect_gutters before
any vertical gutter can be produced, so estimate_reading_order raises too. -/
theorem claim_C3 :
    detectGutters [BBox.mk 0 0 50 100, BBox.mk 60 0 110 100] 110 100 10 =
        Except.error PyErr.indexError ∧
      estimateReadingOrder [BBox.mk 0 0 50 100, BBox.mk 60 0 110 100] 110 100 none 10 =
        Except.error PyErr.indexError := by
  constructor
  · norm_num [detectGutters, yRangesOf, xRangesOf, sortStable, insertStable, gutterLoop,
      horizStep, vertStep, pyIdx, pyMin, pyMax, List.range_succ]
  · norm_num [estimateReadingOrder, detect4KomaLayout, buildDivisionTree, detectGutters,
      yRangesOf, xRangesOf, sortStable, insertStable, gutterLoop, horizStep, vertStep,
      pyIdx, pyMin, pyMax, List.range_succ]

/-- Claim C4: four full-width stacked panels are detected as 4-koma and
ordered [0, 1, 2, 3] top to bottom without building the division tree, and
for exactly four panels detect_4koma_layout is true iff the average width is
at least 0.8 of the page width and every gap between adjacent sorted
vertical centers deviates from the mean gap by less than 30 percent of it. -/
theorem claim_C4 :
    (detect4KomaLayout [BBox.mk 0 0 100 25, BBox.mk 0 25 100 50,
        BBox.mk 0 50 100 75, BBox.mk 0 75 100 100] 100 100 = true ∧
      estimateReadingOrder [BBox.mk 0 0 100 25, BBox.mk 0 25 100 50,
        BBox.mk 0 50 100 75, BBox.mk 0 75 100 100] 100 100 none 10 =
          Except.ok [0, 1, 2, 3]) ∧
    ∀ (panels : List BBox) (pw ph : ℚ), panels.length = 4 →
      (detect4KomaLayout panels pw ph = true ↔
        pw * (8 / 10) ≤ avgPanelWidth panels ∧
          ∀ gp ∈ centerGaps panels,
            |gp - avgCenterGap panels| < avgCenterGap panels * (3 / 10)) := by
  refine ⟨⟨?_, ?_⟩, detect4Koma_iff⟩
  · norm_num [detect4KomaLayout, avgPanelWidth, panelWidths, sortedCentersY, centerGaps,
      avgCenterGap, sortStable, insertStable, cy, List.range_succ]
  · norm_num [estimateReadingOrder, detect4KomaLayout, avgPanelWidth, panelWidths,
      sortedCentersY, centerGaps, avgCenterGap, sortStable, insertStable, cy,
      fourKomaOrder, List.enum, List.enumFrom, List.range_succ]

/-- Witness for C4 instantiating the characterization at the stacked page. -/
theorem claim_C4_witness :
    ([BBox.mk 0 0 100 25, BBox.mk 0 25 100 50, BBox.mk 0 50 100 75,
        BBox.mk 0 75 100 100] : List BBox).length = 4 ∧
      (detect4KomaLayout [BBox.mk 0 0 100 25, BBox.mk 0 25 100 50, BBox.mk 0 50 100 75,
          BBox.mk 0 75 100 100] 100 100 = true ↔
        100 * (8 / 10) ≤ avgPanelWidth [BBox.mk 0 0 100 25, BBox.mk 0 25 100 50,
          BBox.mk 0 50 100 75, BBox.mk 0 75 100 100] ∧
          ∀ gp ∈ centerGaps [BBox.mk 0 0 100 25, BBox.mk 0 25 100 50, BBox.mk 0 50 100 75,
            BBox.mk 0 75 100 100],
            |gp - avgCenterGap [BBox.mk 0 0 100 25, BBox.mk 0 25 100 50, BBox.mk 0 50 100 75,
              BBox.mk 0 75 100 100]| <
              avgCenterGap [BBox.mk 0 0 100 25, BBox.mk 0 25 100 50, BBox.mk 0 50 100 75,
                BBox.mk 0 75 100 100] * (3 / 10)) :=
  ⟨by norm_num,
   claim_C4.2 [BBox.mk 0 0 100 25, BBox.mk 0 25 100 50, BBox.mk 0 50 100 75,
     BBox.mk 0 75 100 100] 100 100 (by norm_num)⟩

/-- Claim C5: select_best_gutter returns none iff no candidate places at
least one panel center on each of its two sides; otherwise the returned
gutter appears in the scored enumeration (all horizontal candidates before
all vertical ones) with minimal imbalance, strictly before any candidate
scoring equal or better, so the first minimum in enumeration order wins. -/
theorem claim_C5 : ∀ (hg vg : List Gutter) (panels : List BBox),
    (selectBestGutter hg vg panels = none ↔
      (∀ g ∈ hg, List.countP (fun b => decide (cy b < g.position)) panels = 0 ∨
                 List.countP (fun b => decide (g.position ≤ cy b)) panels = 0) ∧
      (∀ g ∈ vg, List.countP (fun b => decide (cx b < g.position)) panels = 0 ∨
                 List.countP (fun b => decide (g.position ≤ cx b)) panels = 0)) ∧
    (∀ g, selectBestGutter hg vg panels = some g →
      ∃ s l1 l2, scoredGutters hg vg panels = l1 ++ (g, s) :: l2 ∧
        (∀ p ∈ l1, s < p.2) ∧ (∀ p ∈ scoredGutters hg vg panels, s ≤ p.2)) := by
  intro hg vg panels
  constructor
  · constructor
    · intro h
      have hnil := scored_nil_of_select_none h
      rw [scoredGutters, List.append_eq_nil] at hnil
      obtain ⟨hh, hv⟩ := hnil
      rw [List.filterMap_eq_nil] at hh hv
      exact ⟨fun g hgm => (hScore_eq_none_iff panels g).mp (hh g hgm),
             fun g hgm => (vScore_eq_none_iff panels g).mp (hv g hgm)⟩
    · rintro ⟨hh, hv⟩
      apply select_none_of_scored_nil
      rw [scoredGutters, List.append_eq_nil, List.filterMap_eq_nil, List.filterMap_eq_nil]
      exact ⟨fun g hgm => (hScore_eq_none_iff panels g).mpr (hh g hgm),
             fun g hgm => (vScore_eq_none_iff panels g).mpr (hv g hgm)⟩
  · intro g hsel
    exact selectBestGutter_some_spec hsel

/-- Witness for C5 on the symmetric 2 by 2 grid, where a horizontal and a
vertical gutter tie at imbalance 0 and the horizontal one wins. -/
theorem claim_C5_witness :
    selectBestGutter [Gutter.mk Orientation.horizontal 50 0 100]
        [Gutter.mk Orientation.vertical 50 0 100]
        [BBox.mk 0 0 40 40, BBox.mk 60 0 100 40, BBox.mk 0 60 40 100,
          BBox.mk 60 60 100 100] =
      some (Gutter.mk Orientation.horizontal 50 0 100) ∧
    ∃ s l1 l2,
      scoredGutters [Gutter.mk Orientation.horizontal 50 0 100]
          [Gutter.mk Orientation.vertical 50 0 100]
          [BBox.mk 0 0 40 40, BBox.mk 60 0 100 40, BBox.mk 0 60 40 100,
            BBox.mk 60 60 100 100] =
        l1 ++ (Gutter.mk Orientation.horizontal 50 0 100, s) :: l2 ∧
      (∀ p ∈ l1, s < p.2) ∧
      (∀ p ∈ scoredGutters [Gutter.mk Orientation.horizontal 50 0 100]
          [Gutter.mk Orientation.vertical 50 0 100]
          [BBox.mk 0 0 40 40, BBox.mk 60 0 100 40, BBox.mk 0 60 40 100,
            BBox.mk 60 60 100 100], s ≤ p.2) := by
  have h : selectBestGutter [Gutter.mk Orientation.horizontal 50 0 100]
      [Gutter.mk Orientation.vertical 50 0 100]
      [BBox.mk 0 0 40 40, BBox.mk 60 0 100 40, BBox.mk 0 60 40 100,
        BBox.mk 60 60 100 100] =
      some (Gutter.mk Orientation.horizontal 50 0 100) := by
    norm_num [selectBestGutter, scoredGutters, hScore, vScore, sortStable, insertStable,
      cx, cy, List.countP_cons, List.filterMap_cons]
  exact ⟨h,
    (claim_C5 [Gutter.mk Orientation.horizontal 50 0 100]
      [Gutter.mk Orientation.vertical 50 0 100]
      [BBox.mk 0 0 40 40, BBox.mk 60 0 100 40, BBox.mk 0 60 40 100,
        BBox.mk 60 60 100 100]).2 (Gutter.mk Orientation.horizontal 50 0 100) h⟩

/-- Claim C6: divide_panels_by_gutter partitions the panels, with the right
side (center x at least the gutter position) first for a vertical gutter and
the top side (center y strictly below the position) first for a horizontal
one, a center exactly on the gutter falling to the side of the non-strict
comparison.  All of this holds, but build_division_tree never reaches the
step that stores the two children, because detect_gutters raises IndexError
for every panel set of size at least two (shown on a concrete input). -/
theorem claim_C6 :
    (∀ (panels : List BBox) (g : Gutter),
        ((dividePanelsByGutter panels g).1 ++ (dividePanelsByGutter panels g).2).Perm
          panels) ∧
    (∀ (panels : List BBox) (g : Gutter) (b : BBox),
        g.orientation = Orientation.vertical →
        ((b ∈ (dividePanelsByGutter panels g).1 ↔ b ∈ panels ∧ g.position ≤ cx b) ∧
         (b ∈ (dividePanelsByGutter panels g).2 ↔ b ∈ panels ∧ cx b < g.position))) ∧
    (∀ (panels : List BBox) (g : Gutter) (b : BBox),
        g.orientation = Orientation.horizontal →
        ((b ∈ (dividePanelsByGutter panels g).1 ↔ b ∈ panels ∧ cy b < g.position) ∧
         (b ∈ (dividePanelsByGutter panels g).2 ↔ b ∈ panels ∧ g.position ≤ cy b))) ∧
    buildDivisionTree 110 100 10 10 [BBox.mk 0 0 50 100, BBox.mk 60 0 110 100] =
      Except.error PyErr.indexError := by
  refine ⟨?_, ?_, ?_, ?_⟩
  · intro panels g
    rw [divide_eq_filter]
    split
    · have hfe : ∀ x : BBox, (!decide (cy x < g.position)) = decide (g.position ≤ cy x) := by
        intro x
        rw [← decide_not, decide_eq_decide]
        exact not_lt
      simpa [hfe] using
        List.filter_append_perm (fun b => decide (cy b < g.position)) panels
    · have hfe : ∀ x : BBox, (!decide (g.position ≤ cx x)) = decide (cx x < g.position) := by
        intro x
        rw [← decide_not, decide_eq_decide]
        exact not_le
      simpa [hfe] using
        List.filter_append_perm (fun b => decide (g.position ≤ cx b)) panels
  · intro panels g b hor
    have hne : ¬ g.orientation = Orientation.horizontal := by rw [hor]; intro hx; cases hx
    rw [divide_eq_filter, if_neg hne]
    constructor
    · simp [List.mem_filter]
    · simp [List.mem_filter, not_le]
  · intro panels g b hor
    rw [divide_eq_filter, if_pos hor]
    constructor
    · simp [List.mem_filter]
    · simp [List.mem_filter, not_lt]
  · norm_num [buildDivisionTree, detectGutters, yRangesOf, xRangesOf, sortStable,
      insertStable, gutterLoop, horizStep, vertStep, pyIdx, pyMin, pyMax, List.range_succ]

/-- Witness for C6 at the two-panel page and the gutter the spec expects. -/
theorem claim_C6_witness :
    ((BBox.mk 60 0 110 100 ∈ (dividePanelsByGutter
        [BBox.mk 0 0 50 100, BBox.mk 60 0 110 100]
        (Gutter.mk Orientation.vertical 55 0 100)).1 ↔
      BBox.mk 60 0 110 100 ∈ ([BBox.mk 0 0 50 100, BBox.mk 60 0 110 100] : List BBox) ∧
        (Gutter.mk Orientation.vertical 55 0 100).position ≤ cx (BBox.mk 60 0 110 100)) ∧
     (BBox.mk 60 0 110 100 ∈ (dividePanelsByGutter
        [BBox.mk 0 0 50 100, BBox.mk 60 0 110 100]
        (Gutter.mk Orientation.vertical 55 0 100)).2 ↔
      BBox.mk 60 0 110 100 ∈ ([BBox.mk 0 0 50 100, BBox.mk 60 0 110 100] : List BBox) ∧
        cx (BBox.mk 60 0 110 100) < (Gutter.mk Orientation.vertical 55 0 100).position)) ∧
    ((BBox.mk 0 0 50 100 ∈ (dividePanelsByGutter
        [BBox.mk 0 0 50 100, BBox.mk 60 0 110 100]
        (Gutter.mk Orientation.horizontal 55 0 100)).1 ↔
      BBox.mk 0 0 50 100 ∈ ([BBox.mk 0 0 50 100, BBox.mk 60 0 110 100] : List BBox) ∧
        cy (BBox.mk 0 0 50 100) < (Gutter.mk Orientation.horizontal 55 0 100).position) ∧
     (BBox.mk 0 0 50 100 ∈ (dividePanelsByGutter
        [BBox.mk 0 0 50 100, BBox.mk 60 0 110 100]
        (Gutter.mk Orientation.horizontal 55 0 100)).2 ↔
      BBox.mk 0 0 50 100 ∈ ([BBox.mk 0 0 50 100, BBox.mk 60 0 110 100] : List BBox) ∧
        (Gutter.mk Orientation.horizontal 55 0 100).position ≤ cy (BBox.mk 0 0 50 100))) :=
  ⟨claim_C6.2.1 [BBox.mk 0 0 50 100, BBox.mk 60 0 110 100]
     (Gutter.mk Orientation.vertical 55 0 100) (BBox.mk 60 0 110 100) rfl,
   claim_C6.2.2.1 [BBox.mk 0 0 50 100, BBox.mk 60 0 110 100]
     (Gutter.mk Orientation.horizontal 55 0 100) (BBox.mk 0 0 50 100) rfl⟩

/-- Claim C7: detect_gutters returns no gutters for a panel set of size at
most one; for every panel set of size at least two it raises instead of
returning gutters whose gap meets the threshold, because of the tuple
subscript bug at source line 115. -/
theorem claim_C7 :
    (∀ (panels : List BBox) (pw ph mgs : ℚ), panels.length ≤ 1 →
        detectGutters panels pw ph mgs = Except.ok ([], [])) ∧
    (∀ (panels : List BBox) (pw ph mgs : ℚ), 2 ≤ panels.length →
        ∃ e, detectGutters panels pw ph mgs = Except.error e) :=
  ⟨detectGutters_small, detectGutters_error⟩

/-- Witness for C7 at a singleton-free and a two-panel input. -/
theorem claim_C7_witness :
    detectGutters [] 1 1 10 = Except.ok ([], []) ∧
      ∃ e, detectGutters [BBox.mk 0 0 50 100, BBox.mk 60 0 110 100] 110 100 10 =
        Except.error e :=
  ⟨claim_C7.1 [] 1 1 10 (by norm_num),
   claim_C7.2 [BBox.mk 0 0 50 100, BBox.mk 60 0 110 100] 110 100 10 (by norm_num)⟩

/-- Claim C8: the index-reconciliation procedure of estimate_reading_order
always yields a permutation of 0..n-1, any unused index being appended in
original order; but inside estimate_reading_order the merged-leaf scenario
of the claim is unreachable, since the function raises in detect_gutters
before any division tree exists (shown on two overlapping panels, an input
whose intended tree would be a single merged leaf). -/
theorem claim_C8 :
    (∀ ordered panels : List BBox,
        (reconcileIndices ordered panels).Perm (List.range panels.length)) ∧
      estimateReadingOrder [BBox.mk 0 0 100 100, BBox.mk 10 10 90 90] 100 100 none 10 =
        Except.error PyErr.indexError := by
  constructor
  · exact reconcileIndices_perm
  · norm_num [estimateReadingOrder, detect4KomaLayout, buildDivisionTree, detectGutters,
      yRangesOf, xRangesOf, sortStable, insertStable, gutterLoop, horizStep, vertStep,
      pyIdx, pyMin, pyMax, List.range_succ]

/-- Claim C9: the empty panel list yields the empty order and a single panel
yields [0], for any page dimensions, 4-koma flag and minimum gutter size. -/
theorem claim_C9 :
    (∀ (pw ph : ℚ) (k : Option Bool) (mgs : ℚ),
        estimateReadingOrder [] pw ph k mgs = Except.ok []) ∧
    (∀ (b : BBox) (pw ph : ℚ) (k : Option Bool) (mgs : ℚ),
        estimateReadingOrder [b] pw ph k mgs = Except.ok [0]) := by
  constructor
  · intro pw ph k mgs
    rw [estimateReadingOrder.eq_def]
    simp
  · intro b pw ph k mgs
    rw [estimateReadingOrder.eq_def]
    simp

/-- Claim C10: with is_4koma passed as true, estimate_reading_order sorts
the indices of any list of two or more panels by ascending vertical center,
stably (equal centers keep the smaller index first), and the result does not
depend on the page dimensions or the minimum gutter size. -/
theorem claim_C10 : ∀ (panels : List BBox) (pw ph mgs : ℚ), 2 ≤ panels.length →
    estimateReadingOrder panels pw ph (some true) mgs =
        Except.ok (fourKomaOrder panels) ∧
    (fourKomaOrder panels).Perm (List.range panels.length) ∧
    (fourKomaOrder panels).Pairwise (fun i j =>
      cyAt panels i < cyAt panels j ∨ (cyAt panels i = cyAt panels j ∧ i < j)) ∧
    ∀ pw2 ph2 mgs2 : ℚ,
      estimateReadingOrder panels pw2 ph2 (some true) mgs2 =
        estimateReadingOrder panels pw ph (some true) mgs := by
  intro panels pw ph mgs h
  refine ⟨estimate_4koma_path panels pw ph mgs h, fourKomaOrder_perm panels,
    fourKomaOrder_pairwise panels, ?_⟩
  intro pw2 ph2 mgs2
  rw [estimate_4koma_path panels pw2 ph2 mgs2 h, estimate_4koma_path panels pw ph mgs h]

/-- Witness for C10 on three panels with a tie between indices 1 and 2. -/
theorem claim_C10_witness :
    2 ≤ ([BBox.mk 0 20 10 30, BBox.mk 0 0 10 10, BBox.mk 0 0 10 10] : List BBox).length ∧
    fourKomaOrder [BBox.mk 0 20 10 30, BBox.mk 0 0 10 10, BBox.mk 0 0 10 10] = [1, 2, 0] ∧
    (estimateReadingOrder [BBox.mk 0 20 10 30, BBox.mk 0 0 10 10, BBox.mk 0 0 10 10] 7 9
        (some true) 3 =
        Except.ok (fourKomaOrder [BBox.mk 0 20 10 30, BBox.mk 0 0 10 10,
          BBox.mk 0 0 10 10]) ∧
      (fourKomaOrder [BBox.mk 0 20 10 30, BBox.mk 0 0 10 10, BBox.mk 0 0 10 10]).Perm
        (List.range ([BBox.mk 0 20 10 30, BBox.mk 0 0 10 10,
          BBox.mk 0 0 10 10] : List BBox).length) ∧
      (fourKomaOrder [BBox.mk 0 20 10 30, BBox.mk 0 0 10 10,
          BBox.mk 0 0 10 10]).Pairwise (fun i j =>
        cyAt [BBox.mk 0 20 10 30, BBox.mk 0 0 10 10, BBox.mk 0 0 10 10] i <
            cyAt [BBox.mk 0 20 10 30, BBox.mk 0 0 10 10, BBox.mk 0 0 10 10] j ∨
          (cyAt [BBox.mk 0 20 10 30, BBox.mk 0 0 10 10, BBox.mk 0 0 10 10] i =
              cyAt [BBox.mk 0 20 10 30, BBox.mk 0 0 10 10, BBox.mk 0 0 10 10] j ∧
            i < j)) ∧
      ∀ pw2 ph2 mgs2 : ℚ,
        estimateReadingOrder [BBox.mk 0 20 10 30, BBox.mk 0 0 10 10, BBox.mk 0 0 10 10]
            pw2 ph2 (some true) mgs2 =
          estimateReadingOrder [BBox.mk 0 20 10 30, BBox.mk 0 0 10 10, BBox.mk 0 0 10 10]
            7 9 (some true) 3) :=
  ⟨by norm_num,
   by norm_num [fourKomaOrder, sortStable, insertStable, cy, List.enum, List.enumFrom],
   claim_C10 [BBox.mk 0 20 10 30, BBox.mk 0 0 10 10, BBox.mk 0 0 10 10] 7 9 3
     (by norm_num)⟩

end ReadingOrder
